import Mathlib

/-!
Verification development for the AI-Content-System task-distribution core.

The definitions below are a shallow embedding of the Python sources:
  task_queue.py   (TaskQueue, TaskPrioritizer)
  worker.py       (process_task, MAX_ATTEMPTS)
  scheduler.py    (scheduled_token_reset)
  provider.py     (reset_expired_tokens endpoint body)
  ai_provider.py  (AIProvider, ProviderAccount models)
  task.py         (Task, TaskAssignment, Content models)
  ai_provider_integration.py (AIProviderFactory.get_provider)

Modelling conventions:
  - Wall-clock datetimes are rationals (queue scores) or integers counted in
    seconds (reset dates); the current time is passed in explicitly where the
    source reads the clock.
  - The database session is an explicit record of lists; each
    db.session.commit() in the source is recorded as a snapshot in a commit
    trace.  Uncommitted in-memory mutations that are abandoned when an
    exception escapes are simply not applied to the committed state.
  - Python str.upper is modelled character-wise (pyUpper); Python list.sort
    is modelled with List.insertionSort, a stable sort, matching the stable
    sort the source relies on.
  - Model columns not touched by any claim (timestamps, credentials,
    content metadata) are omitted or kept as opaque strings.
  - The store model lives in namespace AICS because the Task record clashes
    with a core name.
-/

/-- Python str.upper, character by character (provider names are ASCII). -/
def pyUpper (s : String) : String := String.mk (s.data.map Char.toUpper)

/-! ## task_queue.py: TaskQueue (Redis sorted set) -/

namespace TaskQueue

/-- A Redis sorted set: members (task ids) with rational scores. -/
abbrev Queue := List (String × ℚ)

def emptyQueue : Queue := []

/-- Score computed by TaskQueue.enqueue_task, task_queue.py lines 26-30:
score = 10 - priority, then final_score = score + timestamp / 1000000. -/
def enqueue_score (priority : ℤ) (timestamp : ℚ) : ℚ :=
  (10 - (priority : ℚ)) + timestamp / 1000000

/-- Redis ZADD: update the score of an existing member, else insert. -/
def zadd (q : Queue) (task_id : String) (s : ℚ) : Queue :=
  if q.any (fun e => e.1 == task_id) then
    q.map (fun e => if e.1 == task_id then (task_id, s) else e)
  else
    q ++ [(task_id, s)]

/-- TaskQueue.enqueue_task: add the id with the computed score.  The source
reads the clock for the timestamp; here it is an explicit argument. -/
def enqueue_task (q : Queue) (task_id : String) (priority : ℤ) (timestamp : ℚ) : Queue :=
  zadd q task_id (enqueue_score priority timestamp)

/-- Redis ordering of sorted-set entries: by score, ties by member string. -/
def entryLt (x y : String × ℚ) : Bool :=
  decide (x.2 < y.2) || (decide (x.2 = y.2) && decide (x.1 < y.1))

def zpopminAux (best : String × ℚ) : List (String × ℚ) → String × ℚ
  | [] => best
  | y :: ys => zpopminAux (if entryLt y best then y else best) ys

/-- Redis ZPOPMIN count=1: the least entry by (score, member), if any. -/
def zpopmin (q : Queue) : Option (String × ℚ) :=
  match q with
  | [] => none
  | x :: xs => some (zpopminAux x xs)

/-- TaskQueue.dequeue_task: pop the lowest-scored id, or None when empty. -/
def dequeue_task (q : Queue) : Option String × Queue :=
  match zpopmin q with
  | none => (none, q)
  | some e => (some e.1, q.erase e)

end TaskQueue

namespace AICS

/-! ## ai_provider.py / task.py: store records -/

structure AIProvider where
  id : Nat
  name : String
  /-- JSON dict task_type -> score, as an association list. -/
  competencies : List (String × ℤ)
  status : String
deriving DecidableEq

/-- AIProvider.get_competencies: json.loads of the stored dict. -/
def AIProvider.get_competencies (p : AIProvider) : List (String × ℤ) :=
  p.competencies

structure ProviderAccount where
  id : Nat
  provider_id : Nat
  token_limit : ℤ
  token_used : ℤ
  /-- reset_date column, nullable; seconds since epoch. -/
  reset_date : Option ℤ
  status : String
deriving DecidableEq

/-- ProviderAccount.tokens_available = token_limit - token_used. -/
def ProviderAccount.tokens_available (a : ProviderAccount) : ℤ :=
  a.token_limit - a.token_used

structure Task where
  id : String
  task_type : String
  priority : ℤ
  status : String
  error_message : Option String
deriving DecidableEq

structure TaskAssignment where
  id : Nat
  task_id : String
  provider_id : Nat
  account_id : Nat
  status : String
  attempt_count : ℤ
  error_message : Option String
deriving DecidableEq

structure Content where
  task_id : String
  title : String
  content_type : String
deriving DecidableEq

/-- The SQL store as seen through the models the core touches. -/
structure DB where
  providers : List AIProvider
  accounts : List ProviderAccount
  tasks : List Task
  assignments : List TaskAssignment
  contents : List Content
deriving DecidableEq

def DB.updateTask (db : DB) (t : Task) : DB :=
  { db with tasks := db.tasks.map (fun u => if u.id == t.id then t else u) }

def DB.addAssignment (db : DB) (g : TaskAssignment) : DB :=
  { db with assignments := db.assignments ++ [g] }

def DB.updateAssignment (db : DB) (g : TaskAssignment) : DB :=
  { db with assignments := db.assignments.map (fun u => if u.id == g.id then g else u) }

def DB.addContent (db : DB) (c : Content) : DB :=
  { db with contents := db.contents ++ [c] }

/-! ## task_queue.py: TaskPrioritizer -/

/-- ProviderAccount.query.filter_by(provider_id=..., status='active'). -/
def activeAccountsOf (db : DB) (pid : Nat) : List ProviderAccount :=
  db.accounts.filter (fun a => a.provider_id == pid && a.status == "active")

/-- The accounts the selector loop considers for a provider: active and with
tokens_available() > 0 (task_queue.py line 94). -/
def eligibleAccounts (db : DB) (pid : Nat) : List ProviderAccount :=
  (activeAccountsOf db pid).filter (fun a => decide (0 < a.tokens_available))

/-- Descending order on (provider, score) pairs: sort(key=score, reverse). -/
def provGE (x y : AIProvider × ℤ) : Prop := y.2 ≤ x.2

instance : DecidableRel provGE := fun x y => inferInstanceAs (Decidable (y.2 ≤ x.2))

instance : IsTotal (AIProvider × ℤ) provGE := ⟨fun a b => le_total b.2 a.2⟩

instance : IsTrans (AIProvider × ℤ) provGE := ⟨fun _ _ _ h1 h2 => le_trans h2 h1⟩

/-- Descending order on accounts by tokens_available (line 97). -/
def accGE (x y : ProviderAccount) : Prop := y.tokens_available ≤ x.tokens_available

instance : DecidableRel accGE :=
  fun x y => inferInstanceAs (Decidable (y.tokens_available ≤ x.tokens_available))

instance : IsTotal ProviderAccount accGE :=
  ⟨fun a b => le_total b.tokens_available a.tokens_available⟩

instance : IsTrans ProviderAccount accGE := ⟨fun _ _ _ h1 h2 => le_trans h2 h1⟩

/-- Result of TaskPrioritizer.select_provider_for_task.  The source returns a
2-tuple (None, message) on its first two failure paths (lines 72 and 82) but
a 3-tuple on success (line 98) and on token exhaustion (line 100); the arity
is part of the observable behaviour, so the embedding keeps it. -/
inductive SelectResult
  | pair (msg : String)
  | tripleErr (msg : String)
  | ok (provider : AIProvider) (account : ProviderAccount)
deriving DecidableEq

/-- AIProvider.query.filter_by(status='active'), task_queue.py line 70. -/
def activeProviders (db : DB) : List AIProvider :=
  db.providers.filter (fun p => p.status == "active")

/-- The matching_providers list of task_queue.py lines 75-79: active
providers declaring the task type, paired with their competency score. -/
def matchingProviders (db : DB) (task_type : String) : List (AIProvider × ℤ) :=
  (activeProviders db).filterMap (fun p =>
    (p.get_competencies.lookup task_type).map (fun s => (p, s)))

/-- The loop of task_queue.py lines 88-98: walk providers in descending
competency order; the first one with a nonempty eligible-account list wins,
paired with the head of that list sorted descending by tokens_available. -/
def findEligible (db : DB) : List (AIProvider × ℤ) → Option (AIProvider × ProviderAccount)
  | [] => none
  | (provider, _) :: rest =>
    match (eligibleAccounts db provider.id).insertionSort accGE with
    | [] => findEligible db rest
    | top :: _ => some (provider, top)

namespace TaskPrioritizer

/-- TaskPrioritizer.select_provider_for_task, task_queue.py lines 66-100. -/
def select_provider_for_task (db : DB) (task : Task) : SelectResult :=
  if (activeProviders db).isEmpty then .pair "No active AI providers available"
  else if (matchingProviders db task.task_type).isEmpty then
    .pair ("No providers with competency for task type: " ++ task.task_type)
  else
    match findEligible db ((matchingProviders db task.task_type).insertionSort provGE) with
    | some (p, a) => .ok p a
    | none => .tripleErr "No providers with available tokens"

/-- Outcome of TaskPrioritizer.assign_task as observed by the worker.  The
worker unpacks the selector result into three names (task_queue.py line
105); a 2-tuple selector return therefore raises ValueError before any
mutation. -/
inductive AssignOutcome
  | excValueError
  | err (task' : Task) (msg : String)
  | ok (provider : AIProvider) (assignment : TaskAssignment) (task' : Task)
deriving DecidableEq

/-- TaskPrioritizer.assign_task, task_queue.py lines 102-125.  newId stands
for the fresh uuid primary key of the created TaskAssignment row.  The
selected provider row is carried along: it is what the ORM backref
assignment.provider resolves to in worker.py line 107. -/
def assign_task (db : DB) (task : Task) (newId : Nat) : AssignOutcome :=
  match select_provider_for_task db task with
  | .pair _ => .excValueError
  | .tripleErr msg => .err { task with status := "failed" } msg
  | .ok p a =>
      .ok p
          { id := newId
            task_id := task.id
            provider_id := p.id
            account_id := a.id
            status := "pending"
            attempt_count := 0
            error_message := none }
          { task with status := "processing" }

end TaskPrioritizer

/-! ## ai_provider_integration.py: AIProviderFactory -/

namespace AIProviderFactory

/-- AIProviderFactory.get_provider, lines 481-491: a fixed registry keyed by
upper-cased provider name; the value is the registry key standing in for the
provider instance. -/
def get_provider (provider_name : String) : Option String :=
  ["GPT", "MANUS", "CLAUDE"].find? (fun k => k == pyUpper provider_name)

end AIProviderFactory

/-! ## worker.py: process_task -/

def MAX_ATTEMPTS : ℤ := 3

/-- Outcome of the external provider_instance.generate_content call
(opaque to the core): content with no error, an error, or the degenerate
neither case that the worker turns into an exception. -/
inductive GenResult
  | content (title content_type : String)
  | err (msg : String)
  | noContent
deriving DecidableEq

/-- Result of one process_task call: the final committed store, the snapshot
at each db.session.commit(), and each TaskQueue.enqueue_task call made. -/
structure ProcResult where
  db : DB
  commits : List DB
  enqueued : List (String × ℤ)
deriving DecidableEq

/-- The except-branch of worker.py lines 139-151: mark the assignment failed
and either re-enqueue (attempt_count < MAX_ATTEMPTS) or terminally fail the
task.  Returns the post-commit store and the enqueue calls made. -/
def execFailure (db1 : DB) (task1 : Task) (assignment : TaskAssignment)
    (emsg : String) : DB × List (String × ℤ) :=
  let asgF := { assignment with
    status := "failed"
    error_message := some emsg }
  if assignment.attempt_count < MAX_ATTEMPTS then
    let taskF := { task1 with status := "pending" }
    ((db1.updateTask taskF).updateAssignment asgF, [(task1.id, task1.priority)])
  else
    let taskF := { task1 with
      status := "failed"
      error_message := some ("Task failed after 3 attempts. Last error: " ++ emsg) }
    ((db1.updateTask taskF).updateAssignment asgF, [])

/-- worker.py process_task, lines 37-155.  gen is the outcome the external
provider call would produce if reached.  The fresh assignment id is modelled
as the current number of assignment rows. -/
def process_task (db : DB) (task_id : String) (gen : GenResult) : ProcResult :=
  match db.tasks.find? (fun t => t.id == task_id) with
  | none =>
      -- lines 48-50: task id not in the store; log and return, nothing touched
      ⟨db, [], []⟩
  | some task =>
    if task.status = "pending" ∨ task.status = "queued_for_retry" then
      match TaskPrioritizer.assign_task db task db.assignments.length with
      | .excValueError =>
          -- the ValueError from unpacking a 2-tuple escapes process_task before
          -- any commit; main_loop catches it and moves on
          ⟨db, [], []⟩
      | .err task' msg =>
          -- lines 63-69: selector reported an error; task failed, commit
          let db' := db.updateTask { task' with error_message := some msg }
          ⟨db', [db'], []⟩
      | .ok provider_model asg0 task1 =>
          -- lines 94-101: first attempt for this fresh assignment, commit
          let assignment := { asg0 with
            attempt_count := asg0.attempt_count + 1
            status := "processing" }
          let db1 := (db.updateTask task1).addAssignment assignment
          match AIProviderFactory.get_provider provider_model.name with
          | none =>
              -- lines 113-118: unrecognized implementation; both rows failed
              let msg := "Provider implementation for " ++ provider_model.name ++ " not found."
              let task2 := { task1 with
                status := "failed"
                error_message := some msg }
              let asg2 := { assignment with
                status := "failed"
                error_message := some ("Provider implementation " ++ provider_model.name
                  ++ " not found in factory.") }
              let db2 := (db1.updateTask task2).updateAssignment asg2
              ⟨db2, [db1, db2], []⟩
          | some _ =>
              match gen with
              | .content title ctype =>
                  -- lines 127-134: content persisted, both rows completed
                  let c : Content := { task_id := task.id, title := title,
                                       content_type := ctype }
                  let task2 := { task1 with status := "completed" }
                  let asg2 := { assignment with status := "completed" }
                  let db2 := (((db1.addContent c).updateTask task2).updateAssignment asg2)
                  ⟨db2, [db1, db2], []⟩
              | .err m =>
                  let r := execFailure db1 task1 assignment ("generate_content failed: " ++ m)
                  ⟨r.1, [db1, r.1], r.2⟩
              | .noContent =>
                  let r := execFailure db1 task1 assignment
                    "generate_content returned no content and no error."
                  ⟨r.1, [db1, r.1], r.2⟩
    else
      -- lines 52-54: status gate; completed/failed/processing ids are skipped
      ⟨db, [], []⟩

/-! ## scheduler.py / provider.py: token reset -/

/-- timedelta(days=30) in seconds. -/
def thirtyDays : ℤ := 2592000

/-- The SQL filter reset_date <= now AND token_used > 0 (scheduler.py lines
33-36, provider.py lines 296-299); a NULL reset_date fails the comparison. -/
def eligibleForReset (now : ℤ) (a : ProviderAccount) : Bool :=
  (match a.reset_date with
   | some r => decide (r ≤ now)
   | none => false) && decide (0 < a.token_used)

/-- The while loop of scheduler.py lines 57-58: keep adding 30 days until
the candidate is strictly after now. -/
def advanceReset (now : ℤ) (candidate : ℤ) : ℤ :=
  if _h : candidate ≤ now then advanceReset now (candidate + thirtyDays) else candidate
termination_by (now + thirtyDays - candidate).toNat
decreasing_by
  have h30 : thirtyDays = 2592000 := rfl
  omega

/-- Per-account body of scheduled_token_reset, scheduler.py lines 46-62. -/
def resetAccountScheduled (now : ℤ) (a : ProviderAccount) : ProviderAccount :=
  match a.reset_date with
  | some r => { a with
      token_used := 0
      reset_date := some (advanceReset now (r + thirtyDays)) }
  | none => { a with
      token_used := 0
      reset_date := some (now + thirtyDays) }

/-- scheduled_token_reset, scheduler.py lines 25-77, as a function of the
account table: eligible accounts are rewritten, the rest untouched.  The
whole batch is committed at line 71. -/
def scheduled_token_reset (now : ℤ) (accounts : List ProviderAccount) :
    List ProviderAccount :=
  accounts.map (fun a => if eligibleForReset now a then resetAccountScheduled now a else a)

/-- Per-account body of the manual reset endpoint, provider.py lines
302-310: token_used zeroed and a single 30-day step added, with no catch-up
loop. -/
def resetAccountEndpoint (a : ProviderAccount) : ProviderAccount :=
  match a.reset_date with
  | some r => { a with
      token_used := 0
      reset_date := some (r + thirtyDays) }
  | none => { a with token_used := 0 }

/-- reset_expired_tokens, provider.py lines 283-325 (admin POST
/tokens/reset), as a function of the account table. -/
def reset_expired_tokens (now : ℤ) (accounts : List ProviderAccount) :
    List ProviderAccount :=
  accounts.map (fun a => if eligibleForReset now a then resetAccountEndpoint a else a)

/-! ## Concrete store populations used as witnesses and counterexamples -/

/-- Spec §8 scenario: provider A, competency 9 for type image, with tokens. -/
def exProvA : AIProvider := ⟨1, "GPT", [("image", 9)], "active"⟩

/-- Spec §8 scenario: provider B, competency 10 for type image, no tokens. -/
def exProvB : AIProvider := ⟨2, "CLAUDE", [("image", 10)], "active"⟩

def exAccA : ProviderAccount := ⟨1, 1, 100, 0, none, "active"⟩

def exAccB : ProviderAccount := ⟨2, 2, 50, 50, none, "active"⟩

def exTask : Task := ⟨"t1", "image", 2, "pending", none⟩

def exDB : DB := ⟨[exProvB, exProvA], [exAccA, exAccB], [exTask], [], []⟩

/-- A healthy population: one registered provider (GPT) with a funded
active account and one pending text task. -/
def exProvG : AIProvider := ⟨1, "GPT", [("text", 5)], "active"⟩

def exAccG : ProviderAccount := ⟨1, 1, 1000, 0, none, "active"⟩

def exTaskT : Task := ⟨"t1", "text", 2, "pending", none⟩

def exDBG : DB := ⟨[exProvG], [exAccG], [exTaskT], [], []⟩

/-- Same population but the provider row's name has no factory entry. -/
def exProvN : AIProvider := ⟨1, "NOPE", [("text", 5)], "active"⟩

def exDBN : DB := ⟨[exProvN], [exAccG], [exTaskT], [], []⟩

/-- A store with no provider rows at all. -/
def exDBE : DB := ⟨[], [], [exTaskT], [], []⟩

/-- Three consecutive pickups of task t1, the provider call failing each
time; between pickups nothing else happens (the worker itself re-enqueues
and resets the task to pending). -/
def threeFailedRuns : ProcResult :=
  process_task (process_task (process_task exDBG "t1" (.err "boom")).db "t1"
    (.err "boom")).db "t1" (.err "boom")

/-- An account 45 days overdue with 500 tokens used (spec §8 example),
against now = 45 days after its reset_date anchor 0. -/
def exAcct : ProviderAccount := ⟨1, 1, 1000, 500, some 0, "active"⟩

/-- The two store-integrity conditions of spec §5: a processing task has a
corresponding assignment row, and a completed assignment has a persisted
Content row for its task. -/
abbrev DBInv (db : DB) : Prop :=
  (∀ t ∈ db.tasks, t.status = "processing" →
    ∃ g ∈ db.assignments, g.task_id = t.id) ∧
  (∀ g ∈ db.assignments, g.status = "completed" →
    ∃ c ∈ db.contents, c.task_id = g.task_id)

end AICS

/-! ## Queue-ordering lemmas (task_queue.py) -/

namespace TaskQueue

/-- On a two-entry queue whose first entry has the smaller score, ZPOPMIN
returns the first entry. -/
theorem dequeue_pair_first (a b : String) (sa sb : ℚ) (h : sa < sb) :
    (dequeue_task [(a, sa), (b, sb)]).1 = some a := by
  have h1 : ¬ sb < sa := lt_asymm h
  have h2 : sb ≠ sa := ne_of_gt h
  simp [dequeue_task, zpopmin, zpopminAux, entryLt, h1, h2]

/-- On a two-entry queue whose second entry has the smaller score, ZPOPMIN
returns the second entry. -/
theorem dequeue_pair_second (a b : String) (sa sb : ℚ) (h : sa < sb) :
    (dequeue_task [(b, sb), (a, sa)]).1 = some a := by
  simp [dequeue_task, zpopmin, zpopminAux, entryLt, h]

/-- Enqueueing two distinct ids into the empty queue yields the two-entry
queue in insertion order. -/
theorem enqueue_two (a b : String) (p1 p2 : ℤ) (t1 t2 : ℚ) (hab : a ≠ b) :
    enqueue_task (enqueue_task emptyQueue b p2 t2) a p1 t1
      = [(b, enqueue_score p2 t2), (a, enqueue_score p1 t1)] := by
  have hba : (b == a) = false := beq_eq_false_iff_ne.mpr (fun h => hab h.symm)
  simp [enqueue_task, zadd, emptyQueue, hba]

end TaskQueue

/-- Claim C1 (counterexample): the fractional timestamp term is
timestamp / 1000000, which is not smaller than the unit gap between
priority bands once timestamps reach 1000000 seconds.  Concretely, a
priority-1 task enqueued at timestamp 0 is dequeued before a priority-5
task enqueued at timestamp 5000000 (score 9 versus score 10), so the
priority term does not always dominate. -/
theorem C1_counterexample :
    (TaskQueue.dequeue_task (TaskQueue.enqueue_task
      (TaskQueue.enqueue_task TaskQueue.emptyQueue "low" 1 0) "high" 5 5000000)).1
      = some "low" ∧ some "low" ≠ some "high" := by
  constructor
  · rw [TaskQueue.enqueue_two "high" "low" 5 1 5000000 0 (by decide)]
    apply TaskQueue.dequeue_pair_first
    unfold TaskQueue.enqueue_score
    push_cast
    norm_num
  · decide

/-- Claim C1 (amended): priority dominance holds only inside a bounded
timestamp window.  If p2 < p1 and the enqueue timestamps satisfy
t1 - t2 < (p1 - p2) * 1000000 (seconds), the p1 task scores strictly lower
and is dequeued first even though the p2 task was enqueued earlier; outside
that window the timestamp term overturns the priority bands. -/
theorem C1_priority_window (a b : String) (p1 p2 : ℤ) (t1 t2 : ℚ) (hab : a ≠ b)
    (hp : p2 < p1) (ht : t1 - t2 < ((p1 : ℚ) - (p2 : ℚ)) * 1000000) :
    (TaskQueue.dequeue_task (TaskQueue.enqueue_task
      (TaskQueue.enqueue_task TaskQueue.emptyQueue b p2 t2) a p1 t1)).1 = some a := by
  rw [TaskQueue.enqueue_two a b p1 p2 t1 t2 hab]
  apply TaskQueue.dequeue_pair_second
  unfold TaskQueue.enqueue_score
  have h6 : (0 : ℚ) < 1000000 := by norm_num
  have hd : (t1 - t2) / 1000000 < (p1 : ℚ) - (p2 : ℚ) := (div_lt_iff₀ h6).mpr ht
  have hsub : (t1 - t2) / 1000000 = t1 / 1000000 - t2 / 1000000 := sub_div _ _ _
  have hp' : ((p2 : ℚ)) ≤ (p1 : ℚ) := by exact_mod_cast hp.le
  linarith [hd, hsub]

/-- Witness for C1_priority_window: priority 5 at timestamp 100 beats
priority 1 at timestamp 0. -/
theorem C1_priority_window_witness :
    (TaskQueue.dequeue_task (TaskQueue.enqueue_task
      (TaskQueue.enqueue_task TaskQueue.emptyQueue "low" 1 0) "high" 5 100)).1
      = some "high" :=
  C1_priority_window "high" "low" 5 1 100 0 (by decide) (by decide) (by push_cast; norm_num)

namespace AICS

/-- Claim C2: the worker's retry cap is dead code.  Every pickup creates a
fresh TaskAssignment whose attempt_count is 0 and is incremented exactly
once, so the guard attempt_count < MAX_ATTEMPTS compares 1 < 3 on every
failure.  After the third consecutive failed provider call the task is
still status pending, has been re-enqueued again (a fourth run would
follow), three assignment rows exist, and each carries attempt_count 1 -
the terminal status failed branch is never reached. -/
theorem C2_retry_cap_unreachable :
    ((threeFailedRuns.db.tasks.find? (fun t => t.id == "t1")).map
       (fun t => t.status) = some "pending") ∧
    threeFailedRuns.enqueued = [("t1", 2)] ∧
    threeFailedRuns.db.assignments.length = 3 ∧
    (∀ g ∈ threeFailedRuns.db.assignments,
       g.attempt_count = 1 ∧ g.status = "failed") ∧
    MAX_ATTEMPTS = 3 := by decide

/-- Claim C3: with no active provider rows, select_provider_for_task
returns the 2-tuple (None, message); unpacking it into three names in
assign_task raises ValueError, which escapes process_task before any
commit.  The store is unchanged: the task keeps status pending with no
error_message, no assignment row is created, and the id is not re-enqueued
(it is simply lost from the queue). -/
theorem C3_selector_crash_on_pair_return :
    TaskPrioritizer.select_provider_for_task exDBE exTaskT
      = .pair "No active AI providers available" ∧
    process_task exDBE "t1" (.err "x") = ⟨exDBE, [], []⟩ ∧
    ((exDBE.tasks.find? (fun t => t.id == "t1")).map (fun t => t.status)
      = some "pending") ∧
    exDBE.assignments = [] := by decide

/-- Claim C4 (counterexample): a provider name absent from the factory
registry is terminally failed on its first occurrence.  With provider name
NOPE, one run leaves the task status failed, nothing re-enqueued, and the
single assignment row failed with attempt_count 1, even though
1 < MAX_ATTEMPTS - the retry branch the claim describes is never consulted
for this case. -/
theorem C4_counterexample :
    ((process_task exDBN "t1" (.err "x")).db.tasks.find?
        (fun t => t.id == "t1")).map (fun t => t.status) = some "failed" ∧
    (process_task exDBN "t1" (.err "x")).enqueued = [] ∧
    (∀ g ∈ (process_task exDBN "t1" (.err "x")).db.assignments,
       g.attempt_count = 1 ∧ g.status = "failed") ∧
    (1 : ℤ) < MAX_ATTEMPTS := by decide

/-- Claim C6 (counterexample): the manual reset endpoint
reset_expired_tokens (provider.py), one of the claim's cited sources, adds
exactly one 30-day step with no catch-up loop.  For the spec's own example
account, 45 days overdue (reset_date anchor 0, now = 3888000 s), the new
reset_date is 2592000, which is not strictly later than now. -/
theorem C6_counterexample :
    reset_expired_tokens 3888000 [exAcct]
      = [⟨1, 1, 1000, 0, some 2592000, "active"⟩] ∧
    (2592000 : ℤ) ≤ 3888000 := by decide

/-- Claim C8 (counterexample): a successful task-processing cycle commits
twice, not once: first the assignment creation together with the task's
move to processing, then the execution outcome.  The two committed
snapshots differ, so an intermediate committed state exists and the cycle
is not a single transactional unit. -/
theorem C8_counterexample :
    (process_task exDBG "t1" (.content "a" "text")).commits.length = 2 ∧
    (process_task exDBG "t1" (.content "a" "text")).commits[0]?
      ≠ (process_task exDBG "t1" (.content "a" "text")).commits[1]? := by decide

/-- Claim C10: a dequeued id with no Task row makes process_task return
immediately: no store mutation, no commit, no re-enqueue, so the stale id
is silently and permanently dropped. -/
theorem C10_missing_task_dropped (db : DB) (task_id : String) (gen : GenResult)
    (h : db.tasks.find? (fun t => t.id == task_id) = none) :
    process_task db task_id gen = ⟨db, [], []⟩ := by
  unfold process_task
  rw [h]

/-- Witness for C10_missing_task_dropped: id zz has no Task row. -/
theorem C10_missing_task_dropped_witness :
    exDBG.tasks.find? (fun t => t.id == "zz") = none ∧
    process_task exDBG "zz" (.err "x") = ⟨exDBG, [], []⟩ :=
  ⟨by decide, C10_missing_task_dropped exDBG "zz" (.err "x") (by decide)⟩

end AICS

namespace AICS

/-- Unfolding and specification of the catch-up loop: the result is
strictly after now, lands within one cycle above now whenever the starting
candidate does, and differs from the starting candidate by a whole number
of 30-day cycles. -/
theorem advanceReset_spec (now : ℤ) :
    ∀ (n : ℕ) (c : ℤ), (now + thirtyDays - c).toNat ≤ n →
      now < advanceReset now c ∧
      (c ≤ now + thirtyDays → advanceReset now c ≤ now + thirtyDays) ∧
      ∃ k : ℕ, advanceReset now c = c + thirtyDays * k := by
  have h30 : thirtyDays = 2592000 := rfl
  intro n
  induction n with
  | zero =>
    intro c hc
    have hnc : ¬ c ≤ now := by omega
    rw [advanceReset, dif_neg hnc]
    exact ⟨by omega, fun h => h, ⟨0, by ring⟩⟩
  | succ n ih =>
    intro c hc
    by_cases h : c ≤ now
    · rw [advanceReset, dif_pos h]
      obtain ⟨h1, h2, k, hk⟩ := ih (c + thirtyDays) (by omega)
      refine ⟨h1, fun _ => h2 (by omega), ⟨k + 1, ?_⟩⟩
      rw [hk]
      push_cast
      ring
    · rw [advanceReset, dif_neg h]
      exact ⟨by omega, fun hcle => hcle, ⟨0, by ring⟩⟩

end AICS

namespace AICS

/-- Claim C6 (amended): the scheduled job (scheduler.py) has exactly the
claimed behaviour: it is the pointwise rewrite of eligible accounts,
ineligible accounts are untouched, and an eligible account (non-null
reset_date r with r at or before now, positive token_used) ends with
token_used 0 and reset_date r plus the smallest positive multiple of 30
days strictly later than now.  The manual endpoint reset_expired_tokens
does not share this property (see its counterexample): it adds a single
30-day step only. -/
theorem C6_scheduled_reset_correct (now : ℤ) (l : List ProviderAccount) :
    scheduled_token_reset now l
      = l.map (fun a => if eligibleForReset now a then resetAccountScheduled now a else a) ∧
    (∀ a : ProviderAccount, eligibleForReset now a = false →
      (if eligibleForReset now a then resetAccountScheduled now a else a) = a) ∧
    ∀ (a : ProviderAccount) (r : ℤ), a.reset_date = some r → r ≤ now → 0 < a.token_used →
      eligibleForReset now a = true ∧
      (resetAccountScheduled now a).token_used = 0 ∧
      ∃ k : ℕ, 1 ≤ k ∧
        (resetAccountScheduled now a).reset_date = some (r + thirtyDays * (k : ℤ)) ∧
        now < r + thirtyDays * (k : ℤ) ∧ r + thirtyDays * (k : ℤ) ≤ now + thirtyDays := by
  have h30 : thirtyDays = 2592000 := rfl
  refine ⟨rfl, ?_, ?_⟩
  · intro a h
    simp [h]
  · intro a r hr hle hu
    have helig : eligibleForReset now a = true := by
      simp [eligibleForReset, hr, hle, hu]
    have hreset : resetAccountScheduled now a
        = { a with
            token_used := 0
            reset_date := some (advanceReset now (r + thirtyDays)) } := by
      unfold resetAccountScheduled
      rw [hr]
    obtain ⟨h1, h2, k0, hk0⟩ :=
      advanceReset_spec now ((now + thirtyDays - (r + thirtyDays)).toNat) (r + thirtyDays) le_rfl
    have hadv : advanceReset now (r + thirtyDays) = r + thirtyDays * ((k0 + 1 : ℕ) : ℤ) := by
      rw [hk0]
      push_cast
      ring
    refine ⟨helig, by rw [hreset], ⟨k0 + 1, by omega, ?_, ?_, ?_⟩⟩
    · rw [hreset]
      simp [hadv]
    · rw [← hadv]
      exact h1
    · rw [← hadv]
      exact h2 (by omega)

/-- Witness for C6_scheduled_reset_correct: the spec §8 example account,
45 days overdue, run at now = 3888000 seconds. -/
theorem C6_scheduled_reset_correct_witness :
    eligibleForReset 3888000 exAcct = true ∧
    (resetAccountScheduled 3888000 exAcct).token_used = 0 ∧
    ∃ k : ℕ, 1 ≤ k ∧
      (resetAccountScheduled 3888000 exAcct).reset_date
        = some (0 + thirtyDays * (k : ℤ)) ∧
      3888000 < 0 + thirtyDays * (k : ℤ) ∧
      0 + thirtyDays * (k : ℤ) ≤ 3888000 + thirtyDays :=
  (C6_scheduled_reset_correct 3888000 [exAcct]).2.2 exAcct 0 rfl (by decide) (by decide)

/-- Claim C7: the scheduled token reset job is idempotent.  After one run
every processed account has token_used 0, so the eligibility filter
selects nothing on an immediate second run and the second run changes
nothing. -/
theorem C7_token_reset_idempotent (now : ℤ) (l : List ProviderAccount) :
    (scheduled_token_reset now l).filter (eligibleForReset now) = [] ∧
    scheduled_token_reset now (scheduled_token_reset now l)
      = scheduled_token_reset now l := by
  have key : ∀ a : ProviderAccount,
      eligibleForReset now
        (if eligibleForReset now a then resetAccountScheduled now a else a) = false := by
    intro a
    cases heq : eligibleForReset now a with
    | true =>
      simp only [heq, if_true]
      cases hr : a.reset_date <;>
        simp [eligibleForReset, resetAccountScheduled, hr]
    | false => simp [heq]
  constructor
  · rw [List.filter_eq_nil_iff]
    intro x hx
    rcases List.mem_map.mp hx with ⟨a, _, rfl⟩
    simp [key a]
  · unfold scheduled_token_reset
    rw [List.map_map]
    apply List.map_congr_left
    intro a _
    simp only [Function.comp_apply]
    simp [key a]

end AICS

namespace AICS

/-- Specification of the selector loop over a descending-sorted candidate
list: on success it returns a pair from the list whose provider has an
eligible account of maximal tokens_available, and whose score is at least
the score of every listed provider that has any eligible account. -/
theorem findEligible_spec (db : DB) :
    ∀ (l : List (AIProvider × ℤ)) (p : AIProvider) (a : ProviderAccount),
      List.Pairwise provGE l → findEligible db l = some (p, a) →
      ∃ s : ℤ, (p, s) ∈ l ∧ a ∈ eligibleAccounts db p.id ∧
        (∀ b ∈ eligibleAccounts db p.id, b.tokens_available ≤ a.tokens_available) ∧
        ∀ x ∈ l, eligibleAccounts db x.1.id ≠ [] → x.2 ≤ s := by
  intro l
  induction l with
  | nil =>
    intro p a _ h
    simp [findEligible] at h
  | cons hd rest ih =>
    intro p a hpw h
    obtain ⟨q, s0⟩ := hd
    rw [findEligible] at h
    cases hsort : (eligibleAccounts db q.id).insertionSort accGE with
    | nil =>
      rw [hsort] at h
      have hnil : eligibleAccounts db q.id = [] := by
        have hperm := List.perm_insertionSort accGE (eligibleAccounts db q.id)
        rw [hsort] at hperm
        exact hperm.symm.eq_nil
      obtain ⟨s, hmem, ha, hmax, hopt⟩ := ih p a hpw.of_cons h
      refine ⟨s, List.mem_cons_of_mem _ hmem, ha, hmax, ?_⟩
      intro x hx hne
      rcases List.mem_cons.mp hx with rfl | hx'
      · exact absurd hnil hne
      · exact hopt x hx' hne
    | cons top tl =>
      rw [hsort] at h
      have hpa : (q, top) = (p, a) := Option.some.inj h
      have hq : q = p := congrArg Prod.fst hpa
      have ha : top = a := congrArg Prod.snd hpa
      subst hq
      subst ha
      have htop : top ∈ eligibleAccounts db q.id := by
        have hm : top ∈ (eligibleAccounts db q.id).insertionSort accGE := by
          rw [hsort]
          exact List.mem_cons_self _ _
        exact (List.perm_insertionSort accGE _).mem_iff.mp hm
      have hsorted : List.Sorted accGE (top :: tl) := by
        have hs := List.sorted_insertionSort accGE (eligibleAccounts db q.id)
        rwa [hsort] at hs
      refine ⟨s0, List.mem_cons_self _ _, htop, ?_, ?_⟩
      · intro b hb
        have hb' : b ∈ (eligibleAccounts db q.id).insertionSort accGE :=
          (List.perm_insertionSort accGE _).mem_iff.mpr hb
        rw [hsort] at hb'
        rcases List.mem_cons.mp hb' with rfl | hb''
        · exact le_refl _
        · exact List.rel_of_sorted_cons hsorted b hb''
      · intro x hx _
        rcases List.mem_cons.mp hx with rfl | hx'
        · exact le_refl _
        · exact (List.pairwise_cons.mp hpw).1 x hx'

/-- Claim C5: when select_provider_for_task succeeds with (p, a), p is an
active provider whose competency score for the task's type is maximal
among active providers that both declare the type and have at least one
active account with positive tokens_available, and a is an eligible
account of p with maximal tokens_available among p's eligible accounts.
In particular a lower-competency provider with a funded account beats a
higher-competency provider whose accounts are all exhausted. -/
theorem C5_select_provider_optimal (db : DB) (task : Task) (p : AIProvider)
    (a : ProviderAccount)
    (h : TaskPrioritizer.select_provider_for_task db task = SelectResult.ok p a) :
    p ∈ db.providers ∧ p.status = "active" ∧
    a ∈ eligibleAccounts db p.id ∧
    (∀ b ∈ eligibleAccounts db p.id, b.tokens_available ≤ a.tokens_available) ∧
    ∃ sp : ℤ, p.get_competencies.lookup task.task_type = some sp ∧
      ∀ q ∈ db.providers, q.status = "active" →
        ∀ sq : ℤ, q.get_competencies.lookup task.task_type = some sq →
          eligibleAccounts db q.id ≠ [] → sq ≤ sp := by
  unfold TaskPrioritizer.select_provider_for_task at h
  split at h
  · exact SelectResult.noConfusion h
  · split at h
    · exact SelectResult.noConfusion h
    · split at h
      case _ p' a' heq =>
        obtain ⟨hp, ha⟩ := SelectResult.ok.inj h
        subst hp
        subst ha
        have hpw : List.Pairwise provGE
            ((matchingProviders db task.task_type).insertionSort provGE) :=
          List.sorted_insertionSort provGE _
        obtain ⟨s, hmem, haElig, hmax, hopt⟩ := findEligible_spec db _ p' a' hpw heq
        have hmem' : (p', s) ∈ matchingProviders db task.task_type :=
          (List.perm_insertionSort provGE _).mem_iff.mp hmem
        obtain ⟨u, hu, hfu⟩ := List.mem_filterMap.mp hmem'
        obtain ⟨v, hv, huv⟩ := Option.map_eq_some'.mp hfu
        have hup : u = p' := congrArg Prod.fst huv
        have hvs : v = s := congrArg Prod.snd huv
        subst hup
        subst hvs
        have hmemP := List.mem_filter.mp hu
        refine ⟨hmemP.1, by simpa using hmemP.2, haElig, hmax, ⟨v, hv, ?_⟩⟩
        intro q hq hqact sq hsq hne
        have hq' : q ∈ activeProviders db :=
          List.mem_filter.mpr ⟨hq, by simp [hqact]⟩
        have hqm : (q, sq) ∈ matchingProviders db task.task_type := by
          apply List.mem_filterMap.mpr
          exact ⟨q, hq', by rw [hsq]; rfl⟩
        have hqs : (q, sq) ∈ (matchingProviders db task.task_type).insertionSort provGE :=
          (List.perm_insertionSort provGE _).mem_iff.mpr hqm
        exact hopt (q, sq) hqs hne
      case _ heq => exact SelectResult.noConfusion h

/-- Witness for C5_select_provider_optimal: the spec §8 scenario - provider
CLAUDE has competency 10 for type image but its only account has zero
tokens_available; provider GPT has competency 9 with a funded account; the
selector returns GPT with that account. -/
theorem C5_select_provider_optimal_witness :
    exProvA ∈ exDB.providers ∧ exProvA.status = "active" ∧
    exAccA ∈ eligibleAccounts exDB exProvA.id ∧
    (∀ b ∈ eligibleAccounts exDB exProvA.id,
      b.tokens_available ≤ exAccA.tokens_available) ∧
    ∃ sp : ℤ, exProvA.get_competencies.lookup exTask.task_type = some sp ∧
      ∀ q ∈ exDB.providers, q.status = "active" →
        ∀ sq : ℤ, q.get_competencies.lookup exTask.task_type = some sq →
          eligibleAccounts exDB q.id ≠ [] → sq ≤ sp :=
  C5_select_provider_optimal exDB exTask exProvA exAccA (by decide)

end AICS

namespace AICS

/-- Membership after a task update: each row is the new task or an old row. -/
theorem mem_updateTask (db : DB) (t u : Task) (hu : u ∈ (db.updateTask t).tasks) :
    u = t ∨ u ∈ db.tasks := by
  rcases List.mem_map.mp hu with ⟨v, hv, rfl⟩
  by_cases hid : v.id = t.id
  · left
    simp [hid]
  · right
    simpa [hid] using hv

/-- Membership after an assignment update: the new row or an old row. -/
theorem mem_updateAssignment (db : DB) (g u : TaskAssignment)
    (hu : u ∈ (db.updateAssignment g).assignments) : u = g ∨ u ∈ db.assignments := by
  rcases List.mem_map.mp hu with ⟨v, hv, rfl⟩
  by_cases hid : v.id = g.id
  · left
    simp [hid]
  · right
    simpa [hid] using hv

/-- An assignment-row witness with a given task id survives updateAssignment
when every row sharing the updated row's id already points at the same
task. -/
theorem witness_updateAssignment (db : DB) (a2 : TaskAssignment) (T : String)
    (hpres : ∀ g ∈ db.assignments, g.id = a2.id → g.task_id = a2.task_id)
    (h : ∃ g ∈ db.assignments, g.task_id = T) :
    ∃ g' ∈ (db.updateAssignment a2).assignments, g'.task_id = T := by
  obtain ⟨g, hg, hT⟩ := h
  refine ⟨if g.id == a2.id then a2 else g, List.mem_map_of_mem _ hg, ?_⟩
  by_cases hid : g.id = a2.id
  · rw [if_pos (by simp [hid])]
    rw [← hpres g hg hid]
    exact hT
  · rw [if_neg (by simp [hid])]
    exact hT

/-- Updating a task to a non-processing status preserves the invariant. -/
theorem inv_updateTask_nonproc (db : DB) (t : Task) (hInv : DBInv db)
    (ht : t.status ≠ "processing") : DBInv (db.updateTask t) := by
  constructor
  · intro u hu hproc
    rcases mem_updateTask db t u hu with rfl | hu'
    · exact absurd hproc ht
    · exact hInv.1 u hu' hproc
  · intro g hg hc
    exact hInv.2 g hg hc

/-- Adding a content row preserves the invariant. -/
theorem inv_addContent (db : DB) (c : Content) (hInv : DBInv db) :
    DBInv (db.addContent c) := by
  constructor
  · intro u hu hp
    exact hInv.1 u hu hp
  · intro g hg hc
    obtain ⟨c', hc', hT⟩ := hInv.2 g hg hc
    exact ⟨c', List.mem_append_left _ hc', hT⟩

/-- The worker's first commit - task to processing together with its fresh
assignment row - preserves the invariant. -/
theorem inv_commit1 (db : DB) (task : Task) (g : TaskAssignment)
    (hInv : DBInv db) (hgt : g.task_id = task.id) (hgs : g.status ≠ "completed") :
    DBInv ((db.updateTask { task with status := "processing" }).addAssignment g) := by
  constructor
  · intro u hu hproc
    rcases mem_updateTask db _ u hu with rfl | hu'
    · exact ⟨g, List.mem_append_right _ (List.mem_singleton_self g), hgt⟩
    · obtain ⟨g', hg', hT⟩ := hInv.1 u hu' hproc
      exact ⟨g', List.mem_append_left _ hg', hT⟩
  · intro g' hg' hc
    rcases List.mem_append.mp hg' with hl | hr
    · exact hInv.2 g' hl hc
    · rw [List.mem_singleton.mp hr] at hc
      exact absurd hc hgs

/-- The worker's second commit - task and assignment outcome - preserves
the invariant whenever the new task status is not processing, a completed
assignment status comes with a content witness, and rows sharing the
updated assignment's id point at its task. -/
theorem inv_commit2 (base : DB) (t2 : Task) (a2 : TaskAssignment)
    (hInv : DBInv base)
    (ht : t2.status ≠ "processing")
    (ha : a2.status = "completed" → ∃ c ∈ base.contents, c.task_id = a2.task_id)
    (hpres : ∀ g ∈ base.assignments, g.id = a2.id → g.task_id = a2.task_id) :
    DBInv ((base.updateTask t2).updateAssignment a2) := by
  constructor
  · intro u hu hproc
    rcases mem_updateTask base t2 u hu with rfl | hu'
    · exact absurd hproc ht
    · exact witness_updateAssignment base a2 u.id hpres (hInv.1 u hu' hproc)
  · intro g' hg' hc
    rcases mem_updateAssignment (base.updateTask t2) a2 g' hg' with rfl | hg''
    · exact ha hc
    · exact hInv.2 g' hg'' hc

/-- The failure commit of worker.py lines 139-155 preserves the invariant
in both of its branches. -/
theorem inv_execFailure (db1 : DB) (task1 : Task) (assignment : TaskAssignment)
    (emsg : String) (hInv1 : DBInv db1)
    (hpres : ∀ g ∈ db1.assignments, g.id = assignment.id →
      g.task_id = assignment.task_id) :
    DBInv (execFailure db1 task1 assignment emsg).1 := by
  unfold execFailure
  split
  · exact inv_commit2 db1 _ _ hInv1
      (by show ("pending" : String) ≠ "processing"; decide)
      (fun hc => absurd hc (by show ("failed" : String) ≠ "completed"; decide)) hpres
  · exact inv_commit2 db1 _ _ hInv1
      (by show ("failed" : String) ≠ "processing"; decide)
      (fun hc => absurd hc (by show ("failed" : String) ≠ "completed"; decide)) hpres

/-- Inversion of assign_task on its error outcome. -/
theorem assign_task_err_inv (db : DB) (task : Task) (n : Nat) (t' : Task)
    (msg : String)
    (h : TaskPrioritizer.assign_task db task n = .err t' msg) :
    t' = { task with status := "failed" } := by
  unfold TaskPrioritizer.assign_task at h
  split at h
  · exact TaskPrioritizer.AssignOutcome.noConfusion h
  · exact (TaskPrioritizer.AssignOutcome.err.inj h).1.symm
  · exact TaskPrioritizer.AssignOutcome.noConfusion h

/-- Inversion of assign_task on its success outcome. -/
theorem assign_task_ok_inv (db : DB) (task : Task) (n : Nat) (p : AIProvider)
    (g : TaskAssignment) (t' : Task)
    (h : TaskPrioritizer.assign_task db task n = .ok p g t') :
    g.task_id = task.id ∧ g.status = "pending" ∧ g.attempt_count = 0 ∧
    g.id = n ∧ t' = { task with status := "processing" } := by
  unfold TaskPrioritizer.assign_task at h
  split at h
  · exact TaskPrioritizer.AssignOutcome.noConfusion h
  · exact TaskPrioritizer.AssignOutcome.noConfusion h
  · obtain ⟨hp, hg, ht⟩ := TaskPrioritizer.AssignOutcome.ok.inj h
    subst hg
    subst ht
    exact ⟨rfl, rfl, rfl, rfl, rfl⟩

end AICS

namespace AICS

/-- Claim C8 (amended): the worker commits twice per cycle, not once, but
every committed snapshot still satisfies the store-integrity conditions:
no committed state has a processing task without a corresponding
assignment row, or a completed assignment without a persisted Content row
for its task.  The freshness hypothesis models uuid primary keys: no
existing assignment row collides with the id given to the new row. -/
theorem C8_commit_integrity (db : DB) (task_id : String) (gen : GenResult)
    (hInv : DBInv db)
    (hfresh : ∀ g ∈ db.assignments, g.id ≠ db.assignments.length) :
    ∀ d ∈ (process_task db task_id gen).commits, DBInv d := by
  unfold process_task
  cases hfind : db.tasks.find? (fun t => t.id == task_id) with
  | none =>
    intro d hd
    simp at hd
  | some task =>
    dsimp only
    by_cases hstat : task.status = "pending" ∨ task.status = "queued_for_retry"
    · rw [if_pos hstat]
      cases hassign : TaskPrioritizer.assign_task db task db.assignments.length with
      | excValueError =>
        intro d hd
        simp at hd
      | err task' msg =>
        have ht' := assign_task_err_inv db task _ task' msg hassign
        subst ht'
        intro d hd
        rcases (by simpa using hd :
            d = db.updateTask { { task with status := "failed" } with
              error_message := some msg }) with rfl
        exact inv_updateTask_nonproc db _ hInv
          (by show ("failed" : String) ≠ "processing"; decide)
      | ok p g0 t1 =>
        obtain ⟨hgt, hgs, hgc, hgi, ht1⟩ := assign_task_ok_inv db task _ p g0 t1 hassign
        subst ht1
        dsimp only
        have hInv1 : DBInv ((db.updateTask { task with status := "processing" }).addAssignment
            { { g0 with attempt_count := g0.attempt_count + 1 } with status := "processing" }) :=
          inv_commit1 db task _ hInv hgt
            (by show ("processing" : String) ≠ "completed"; decide)
        have hpres : ∀ g2 ∈ ((db.updateTask { task with status := "processing" }).addAssignment
              { { g0 with attempt_count := g0.attempt_count + 1 } with
                status := "processing" }).assignments,
            g2.id = g0.id → g2.task_id = g0.task_id := by
          intro g2 hg2 hid2
          rcases List.mem_append.mp hg2 with hl | hr
          · exact absurd (hid2.trans hgi) (hfresh g2 hl)
          · rw [List.mem_singleton.mp hr]
        cases hfac : AIProviderFactory.get_provider p.name with
        | none =>
          intro d hd
          rcases (by simpa using hd : _ ∨ _) with rfl | rfl
          · exact hInv1
          · exact inv_commit2 _ _ _ hInv1
              (by show ("failed" : String) ≠ "processing"; decide)
              (fun hc => absurd hc (by show ("failed" : String) ≠ "completed"; decide))
              hpres
        | some impl =>
          cases gen with
          | content title ctype =>
            intro d hd
            rcases (by simpa using hd : _ ∨ _) with rfl | rfl
            · exact hInv1
            · refine inv_commit2 _ _ _ (inv_addContent _ _ hInv1)
                (by show ("completed" : String) ≠ "processing"; decide)
                (fun _ => ⟨⟨task.id, title, ctype⟩,
                  List.mem_append_right _ (List.mem_singleton_self _), hgt.symm⟩)
                hpres
          | err m =>
            intro d hd
            rcases (by simpa using hd : _ ∨ _) with rfl | rfl
            · exact hInv1
            · exact inv_execFailure _ _ _ _ hInv1 hpres
          | noContent =>
            intro d hd
            rcases (by simpa using hd : _ ∨ _) with rfl | rfl
            · exact hInv1
            · exact inv_execFailure _ _ _ _ hInv1 hpres
    · rw [if_neg hstat]
      intro d hd
      simp at hd

/-- Witness for C8_commit_integrity: a successful cycle on the healthy
store, both commits checked. -/
theorem C8_commit_integrity_witness :
    DBInv exDBG ∧ (∀ g ∈ exDBG.assignments, g.id ≠ exDBG.assignments.length) ∧
    ∀ d ∈ (process_task exDBG "t1" (.content "a" "text")).commits, DBInv d :=
  ⟨by decide, by decide,
    C8_commit_integrity exDBG "t1" (.content "a" "text") (by decide) (by decide)⟩

end AICS

namespace AICS

/-- The updated task row is present after updateTask when some row carried
its id. -/
theorem mem_updateTask_self (db : DB) (t u : Task)
    (hid : u.id = t.id) (h : u ∈ db.tasks) : t ∈ (db.updateTask t).tasks := by
  have h2 := List.mem_map_of_mem (fun v => if v.id == t.id then t else v) h
  simp only [hid, beq_self_eq_true, eq_self_iff_true, if_true, ite_true] at h2
  exact h2

/-- The updated assignment row is present after updateAssignment when some
row carried its id. -/
theorem mem_updateAssignment_self (db : DB) (a2 g : TaskAssignment)
    (hid : g.id = a2.id) (h : g ∈ db.assignments) :
    a2 ∈ (db.updateAssignment a2).assignments := by
  have h2 := List.mem_map_of_mem (fun v => if v.id == a2.id then a2 else v) h
  simp only [hid, beq_self_eq_true, eq_self_iff_true, if_true, ite_true] at h2
  exact h2

/-- Claim C4 (amended): a selected provider whose name has no entry in the
factory registry makes the worker terminally fail the task on the first
occurrence: both commits happen, nothing is re-enqueued, the task ends
failed with the not-found message, and the assignment row ends failed with
attempt_count 1, which is below MAX_ATTEMPTS - the retry branch is never
consulted for this case. -/
theorem C4_unknown_provider_terminal (db : DB) (task_id : String)
    (gen : GenResult) (task : Task) (p : AIProvider) (g0 : TaskAssignment)
    (t1 : Task)
    (hfind : db.tasks.find? (fun t => t.id == task_id) = some task)
    (hstat : task.status = "pending" ∨ task.status = "queued_for_retry")
    (hassign : TaskPrioritizer.assign_task db task db.assignments.length
      = .ok p g0 t1)
    (hfac : AIProviderFactory.get_provider p.name = none) :
    (process_task db task_id gen).enqueued = [] ∧
    (process_task db task_id gen).commits.length = 2 ∧
    (∃ t2 ∈ (process_task db task_id gen).db.tasks,
      t2.id = task.id ∧ t2.status = "failed" ∧
      t2.error_message = some ("Provider implementation for " ++ p.name
        ++ " not found.")) ∧
    ∃ g2 ∈ (process_task db task_id gen).db.assignments,
      g2.task_id = task.id ∧ g2.status = "failed" ∧ g2.attempt_count = 1 ∧
      g2.attempt_count < MAX_ATTEMPTS := by
  obtain ⟨hgt, hgs, hgc, hgi, ht1⟩ := assign_task_ok_inv db task _ p g0 t1 hassign
  subst ht1
  have htask : task ∈ db.tasks := List.mem_of_find?_eq_some hfind
  have hm1 : ({ task with status := "processing" } : Task) ∈ (db.updateTask { task with status := "processing" }).tasks :=
    mem_updateTask_self db { task with status := "processing" } task rfl htask
  have hmt2 : ({ { { task with status := "processing" } with status := "failed" } with
      error_message := some ("Provider implementation for " ++ p.name ++ " not found.") } : Task) ∈
      (((db.updateTask { task with status := "processing" }).addAssignment
      { { g0 with attempt_count := g0.attempt_count + 1 } with status := "processing" }).updateTask
        { { { task with status := "processing" } with status := "failed" } with
      error_message := some ("Provider implementation for " ++ p.name ++ " not found.") }).tasks :=
    mem_updateTask_self ((db.updateTask { task with status := "processing" }).addAssignment
      { { g0 with attempt_count := g0.attempt_count + 1 } with status := "processing" })
      { { { task with status := "processing" } with status := "failed" } with
      error_message := some ("Provider implementation for " ++ p.name ++ " not found.") }
      { task with status := "processing" } rfl hm1
  have hma : ({ { g0 with attempt_count := g0.attempt_count + 1 } with status := "processing" } : TaskAssignment) ∈
      ((db.updateTask { task with status := "processing" }).addAssignment
      { { g0 with attempt_count := g0.attempt_count + 1 } with status := "processing" }).assignments :=
    List.mem_append_right db.assignments (List.mem_singleton_self _)
  have hma2 : ({ { { { g0 with attempt_count := g0.attempt_count + 1 } with status := "processing" } with status := "failed" } with
      error_message := some ("Provider implementation " ++ p.name ++ " not found in factory.") } : TaskAssignment) ∈
      ((((db.updateTask { task with status := "processing" }).addAssignment
      { { g0 with attempt_count := g0.attempt_count + 1 } with status := "processing" }).updateTask
          { { { task with status := "processing" } with status := "failed" } with
      error_message := some ("Provider implementation for " ++ p.name ++ " not found.") }).updateAssignment
        { { { { g0 with attempt_count := g0.attempt_count + 1 } with status := "processing" } with status := "failed" } with
      error_message := some ("Provider implementation " ++ p.name ++ " not found in factory.") }).assignments :=
    mem_updateAssignment_self
      (((db.updateTask { task with status := "processing" }).addAssignment
      { { g0 with attempt_count := g0.attempt_count + 1 } with status := "processing" }).updateTask
        { { { task with status := "processing" } with status := "failed" } with
      error_message := some ("Provider implementation for " ++ p.name ++ " not found.") })
      { { { { g0 with attempt_count := g0.attempt_count + 1 } with status := "processing" } with status := "failed" } with
      error_message := some ("Provider implementation " ++ p.name ++ " not found in factory.") }
      { { g0 with attempt_count := g0.attempt_count + 1 } with status := "processing" } rfl hma
  unfold process_task
  rw [hfind]
  dsimp only
  rw [if_pos hstat, hassign]
  dsimp only
  rw [hfac]
  refine ⟨rfl, rfl, ?_, ?_⟩
  · exact ⟨{ { { task with status := "processing" } with status := "failed" } with
      error_message := some ("Provider implementation for " ++ p.name ++ " not found.") }, hmt2, rfl, rfl, rfl⟩
  · refine ⟨{ { { { g0 with attempt_count := g0.attempt_count + 1 } with status := "processing" } with status := "failed" } with
      error_message := some ("Provider implementation " ++ p.name ++ " not found in factory.") }, hma2, hgt, rfl, ?_, ?_⟩
    · show g0.attempt_count + 1 = 1
      rw [hgc]
      decide
    · show g0.attempt_count + 1 < MAX_ATTEMPTS
      rw [hgc]
      decide

/-- Witness for C4_unknown_provider_terminal: the exDBN population whose
only provider is named NOPE. -/
theorem C4_unknown_provider_terminal_witness :
    (process_task exDBN "t1" (.err "x")).enqueued = [] ∧
    (process_task exDBN "t1" (.err "x")).commits.length = 2 ∧
    (∃ t2 ∈ (process_task exDBN "t1" (.err "x")).db.tasks,
      t2.id = exTaskT.id ∧ t2.status = "failed" ∧
      t2.error_message = some ("Provider implementation for " ++ exProvN.name
        ++ " not found.")) ∧
    ∃ g2 ∈ (process_task exDBN "t1" (.err "x")).db.assignments,
      g2.task_id = exTaskT.id ∧ g2.status = "failed" ∧ g2.attempt_count = 1 ∧
      g2.attempt_count < MAX_ATTEMPTS :=
  C4_unknown_provider_terminal exDBN "t1" (.err "x") exTaskT exProvN
    ⟨0, "t1", 1, 1, "pending", 0, none⟩ ⟨"t1", "text", 2, "processing", none⟩
    (by decide) (Or.inl rfl) (by decide) (by decide)

end AICS
